import Mathlib

/-!
Verification of `bqtestmagic`: a notebook cell magic that runs a SQL query
against BigQuery and asserts that its result matches an expectation given
either as a CSV snapshot or as an alternate SQL query.

The development shallowly embeds `src/bqtestmagic.py`:

* the Python text primitives `str.rstrip`, `textwrap.indent` and
  `textwrap.dedent` used by `query_to_check_that_two_query_results_match`
  are modelled at the `List Char` level (text lines are separated by
  a newline character; the ASCII whitespace set of CPython is used);
* the generated comparator SQL string is built exactly as in the source,
  from the three literal template segments of the f-string;
* the meaning of the generated statement under an abstract warehouse
  (GROUP BY + COUNT, FULL JOIN USING, SQL three-valued `IS NOT TRUE`,
  `NOT EXISTS`) is given as an executable pipeline over row multisets;
* the client interaction of the comparator method is a state-passing
  model recording every submitted statement;
* `BigQueryTest.test` and the magic entry point `SQLTestMagic.sql` are
  embedded with their external collaborators (warehouse, filesystem,
  csv reader, dataframe equality) as an oracle record, printing to
  stdout/stderr modelled as string lists and Python exceptions as
  `Except` / an explicit `raised` field.
-/

/-! ## Python text primitives -/

/-- CPython whitespace characters recognised by `str.strip` / `str.rstrip`
(ASCII part; the queries this tool handles are ASCII SQL). -/
def pyWs (c : Char) : Bool :=
  c = ' ' || c = '\t' || c = '\n' || c = '\r' || c = '\x0b' || c = '\x0c'

/-- The characters matched by the `[ \t]` classes in `textwrap.dedent`'s
regular expressions. -/
def spaceTab (c : Char) : Bool :=
  c = ' ' || c = '\t'

/-- Python `str.rstrip()`: drop trailing whitespace. -/
def rstripL (t : List Char) : List Char :=
  (t.reverse.dropWhile pyWs).reverse

/-- Splitting a text at every newline, exactly like Python
`text.split('\n')`: always returns at least one (possibly empty) piece. -/
def splitNl : List Char → List (List Char)
  | [] => [[]]
  | c :: cs =>
    if c = '\n' then [] :: splitNl cs
    else
      match splitNl cs with
      | [] => [[c]]
      | l :: ls => (c :: l) :: ls

/-- Joining line pieces with newlines (inverse of `splitNl`). -/
def joinNl : List (List Char) → List Char
  | [] => []
  | [l] => l
  | l :: ls => l ++ '\n' :: joinNl ls

/-- Boolean list-prefix test. -/
def isPre : List Char → List Char → Bool
  | [], _ => true
  | _ :: _, [] => false
  | x :: xs, y :: ys => x == y && isPre xs ys

/-- Longest common prefix of two character lists.  This is what the margin
update loop of `textwrap.dedent` computes: if one operand is a prefix of
the other the shorter survives, otherwise both are cut at the first
mismatch. -/
def commonPre : List Char → List Char → List Char
  | x :: xs, y :: ys => if x = y then x :: commonPre xs ys else []
  | _, _ => []

/-- Python `textwrap.indent(text, pre)` with the default predicate
`line.strip()`: every line containing a non-whitespace character is
prefixed, other lines are left alone. -/
def indentL (pre : List Char) (t : List Char) : List Char :=
  joinNl ((splitNl t).map (fun l => if l.all pyWs then l else pre ++ l))

/-- The normalization pass of `textwrap.dedent`: a line consisting solely
of spaces and tabs becomes an empty line. -/
def nbL (l : List Char) : List Char := if l.all spaceTab then [] else l

/-- The indent of one (already normalized) line, as found by `dedent`'s
`(^[ \t]*)(?:[^ \t\n])` regular expression: empty lines contribute
nothing. -/
def idfL (l : List Char) : Option (List Char) :=
  if l.isEmpty then none else some (l.takeWhile spaceTab)

/-- The margin of `textwrap.dedent`: the common prefix of the indents of
all non-empty normalized lines. -/
def marginOf (ls : List (List Char)) : List Char :=
  match ls.filterMap idfL with
  | [] => []
  | i :: is => is.foldl commonPre i

/-- Python `textwrap.dedent(text)`:
lines consisting solely of spaces and tabs are normalized to empty lines;
the margin is the common `[ \t]*` prefix of the remaining lines; the
margin is then removed from the start of every line on which it occurs. -/
def dedentL (t : List Char) : List Char :=
  let ls := (splitNl t).map nbL
  let margin := marginOf ls
  joinNl (ls.map (fun l => if isPre margin l then l.drop margin.length else l))

/-- String-level `str.rstrip()`. -/
def pyRstrip (s : String) : String := ⟨rstripL s.data⟩

/-- String-level `textwrap.indent`. -/
def pyIndent (pre : String) (s : String) : String := ⟨indentL pre.data s.data⟩

/-- String-level `textwrap.dedent`. -/
def pyDedent (s : String) : String := ⟨dedentL s.data⟩

/-! ## The comparator SQL statement

`BigQueryTest.query_to_check_that_two_query_results_match` builds one SQL
string from a dedented f-string.  The f-string is the concatenation of
three literal segments (below, with the source file's indentation kept
verbatim) around the two interpolated, rstripped, 18-space-indented
queries. -/

/-- The 18-space indentation prefix applied to the interpolated queries. -/
def ind18 : String := "                  "

/-- F-string segment before the first interpolated query. -/
def tplA : String :=
  "            SELECT\n              NOT EXISTS(\n              SELECT\n                *\n              FROM (\n                SELECT\n                  FORMAT(\"%T\", actual) AS json_string,\n                  COUNT(*) AS count\n                FROM (\n"

/-- F-string segment between the two interpolated queries. -/
def tplB : String :=
  " ) AS actual\n                GROUP BY\n                  json_string) AS actual\n              FULL JOIN (\n                SELECT\n                  FORMAT(\"%T\", expected) AS json_string,\n                  COUNT(*) AS count\n                FROM (\n"

/-- F-string segment after the second interpolated query. -/
def tplC : String :=
  " ) AS expected\n                GROUP BY\n                  json_string) AS expected\n              USING\n                (json_string)\n              WHERE\n                (actual.count = expected.count) IS NOT TRUE )\n            "

/-- The SQL statement built by
`query_to_check_that_two_query_results_match` for the pair
`(left, right)`: `left` becomes the `actual` block and `right` the
`expected` block. -/
def comparatorSql (left right : String) : String :=
  pyDedent
    (tplA ++ pyIndent ind18 (pyRstrip left) ++ tplB ++
      pyIndent ind18 (pyRstrip right) ++ tplC)

/-! ## Abstract warehouse semantics of the comparator statement -/

/-- An abstract warehouse: every query string denotes a finite multiset of
rows (given as a list in some arbitrary order), and `fmt` is the
serialization `FORMAT("%T", row)` of a whole row to a string.  The
warehouse is whitespace-insensitive: re-indenting the lines of a query
does not change its result, so the subqueries embedded in
`comparatorSql left right` denote `evalQ left` and `evalQ right`. -/
structure Warehouse (Row : Type) where
  evalQ : String → List Row
  fmt : Row → String

/-- `GROUP BY json_string` with `COUNT(*)` over the serialized rows: one
group per distinct string, counted with multiplicity. -/
def groupCount (xs : List String) : List (String × Nat) :=
  xs.dedup.map (fun s => (s, xs.count s))

/-- `FULL JOIN ... USING (json_string)` of the two grouped sides: every
left group is paired with the matching right count (or NULL), and every
right group without a left partner contributes a row with a NULL left
count. -/
def fullJoinUsing (a e : List (String × Nat)) :
    List (String × Option Nat × Option Nat) :=
  a.map (fun p => (p.1, some p.2, e.lookup p.1)) ++
    (e.filter (fun p => (a.lookup p.1).isNone)).map
      (fun p => (p.1, none, some p.2))

/-- The SQL predicate `(x = y) IS NOT TRUE` on two nullable counts: SQL
equality yields NULL when either side is NULL, and `IS NOT TRUE` holds
for both FALSE and NULL. -/
def eqIsNotTrue (x y : Option Nat) : Bool :=
  match x, y with
  | some m, some n => decide (m ≠ n)
  | _, _ => true

/-- The rows kept by the `WHERE (actual.count = expected.count) IS NOT
TRUE` filter of the comparator statement. -/
def mismatchRows (a e : List (String × Nat)) :
    List (String × Option Nat × Option Nat) :=
  (fullJoinUsing a e).filter (fun r => eqIsNotTrue r.2.1 r.2.2)

/-- Denotation of `comparatorSql left right` under the abstract warehouse
`w`: serialize each side's rows, group and count them, full-join the two
grouped sides on the serialized value, and return `NOT EXISTS` of the
count-mismatch rows. -/
def comparatorSqlSemantics {Row : Type} (w : Warehouse Row)
    (left right : String) : Bool :=
  (mismatchRows (groupCount ((w.evalQ left).map w.fmt))
    (groupCount ((w.evalQ right).map w.fmt))).isEmpty

/-! ## Client interaction of the comparator method -/

/-- The BigQuery client as seen by
`query_to_check_that_two_query_results_match`: `respond` is the
warehouse's (pure) response to a statement, a list of result rows each a
list of cells, and `submitted` logs every statement sent with
`client.query`. -/
structure ClientState (Cell : Type) where
  respond : String → List (List Cell)
  submitted : List String

/-- `BigQueryTest.query_to_check_that_two_query_results_match` as a state
transformer: it submits the single built statement and returns
`next(iter(query_job))[0]`, i.e. the first cell of the first result row
(`none` when there is no such row or cell). -/
def query_to_check_that_two_query_results_match {Cell : Type}
    (st : ClientState Cell) (left right : String) :
    ClientState Cell × Option Cell :=
  let sql := comparatorSql left right
  let rows := st.respond sql
  (⟨st.respond, st.submitted ++ [sql]⟩, rows.head?.bind List.head?)

/-! ## The test orchestrator -/

/-- External collaborators of `BigQueryTest.test`, over an opaque
dataframe type `DF`.  Every fallible call returns `Except String`, the
error being the message later printed as `ERROR:\n...`. -/
structure TestEnv (DF : Type) where
  runQueryDf : String → List (String × String) → Except String DF
  readFile : String → Except String String
  dryRunStatementType : String → Except String String
  checkMatch : String → String → Except String Bool
  readCsv : String → Except String DF
  dfEquals : DF → DF → Bool

/-- Observable outcome of one `BigQueryTest.test` call: lines printed to
stdout and stderr, the returned value (`none` models Python `None`), and
the exception propagated to the caller, if any. -/
structure TestOutcome (DF : Type) where
  stdout : List String
  stderr : List String
  ret : Option DF
  raised : Option String
deriving DecidableEq

/-- The `except` branch of `BigQueryTest.test`: print `ERROR:` and the
message to stderr and return `None`, keeping whatever was already
printed to stdout. -/
def errOut (DF : Type) (outs : List String) (e : String) : TestOutcome DF :=
  ⟨outs, ["ERROR:\n" ++ e], none, none⟩

/-- The pass/fail marker printed by `BigQueryTest.test`. -/
def mark (b : Bool) : String := if b then "✓" else "✕"

/-- `BigQueryTest.validate_query`: dry-run the query and reject any
statement type other than SELECT. -/
def validate_query {DF : Type} (env : TestEnv DF) (query : String) :
    Except String Unit :=
  match env.dryRunStatementType query with
  | .error e => .error e
  | .ok st => if st ≠ "SELECT" then .error ("Statement type must be SELECT")
              else .ok ()

/-- The `if csv_file:` tail of `BigQueryTest.test`: optionally compare the
query result against the CSV with dataframe equality and print a marker,
then return the result dataframe. -/
def csvStep {DF : Type} (env : TestEnv DF) (csv_file : Option String)
    (actual : DF) (outs : List String) : TestOutcome DF :=
  match csv_file with
  | none => ⟨outs, [], some actual, none⟩
  | some f =>
    match env.readCsv f with
    | .error e => errOut DF outs e
    | .ok expected_dataframe =>
      ⟨outs ++ [mark (env.dfEquals expected_dataframe actual)], [],
        some actual, none⟩

/-- `BigQueryTest.test`: reject the invocation when both expectation
sources are given, then run the query under test and the selected
comparison path, turning any failure into a printed error and a `None`
return. -/
def test {DF : Type} (env : TestEnv DF) (query : String)
    (csv_file sql_file : Option String) (reliable : Bool)
    (labels : List (String × String)) : TestOutcome DF :=
  if csv_file.isSome && sql_file.isSome then
    ⟨[], [], none, some ("Please specify only sql_file or csv_file.")⟩
  else
    match env.runQueryDf query labels with
    | .error e => errOut DF [] e
    | .ok actual =>
      match sql_file with
      | none => csvStep env csv_file actual []
      | some f =>
        match env.readFile f with
        | .error e => errOut DF [] e
        | .ok expected_sql =>
          match (if !reliable then validate_query env expected_sql
                 else .ok ()) with
          | .error e => errOut DF [] e
          | .ok _ =>
            match env.checkMatch expected_sql query with
            | .error e => errOut DF [] e
            | .ok equals => csvStep env csv_file actual [mark equals]

/-! ## The magic entry point -/

/-- The flags parsed by `magic_arguments.parse_argstring` from the line
of the cell magic. -/
structure MagicArgs where
  target : String
  csv_file : Option String
  sql_file : Option String
  project : Option String
  reliable : Bool
  labels : Option (List (String × String))

/-- Insertion into a Python dict held as an association list: an existing
key keeps its position and gets the new value, a new key is appended. -/
def insertKV : List (String × String) → String × String →
    List (String × String)
  | [], p => [p]
  | q :: qs, p => if q.1 == p.1 then (q.1, p.2) :: qs else q :: insertKV qs p

/-- The dict comprehension building the labels dict from the parsed
KEY=VALUE pairs. -/
def dictOfPairs (ps : List (String × String)) : List (String × String) :=
  ps.foldl insertKV []

/-- The labels dict passed by `SQLTestMagic.sql` to `BigQueryTest.test`:
the parsed pairs as a dict, or an empty dict when no labels were given. -/
def labelsOf (a : MagicArgs) : List (String × String) :=
  dictOfPairs (a.labels.getD [])

/-- `SQLTestMagic.sql`: parse the flags from `line` (the argparse-based
parser is an external collaborator), then delegate to `BigQueryTest.test`
with the cell body as the query under test and return its result. -/
def sqlMagic {DF : Type} (parseLine : String → MagicArgs)
    (env : TestEnv DF) (line cell : String) : TestOutcome DF :=
  let a := parseLine line
  test env cell a.csv_file a.sql_file a.reliable (labelsOf a)

/-- Example warehouse used by the witnesses: rows are already strings and
serialization is the identity. -/
def wEx : Warehouse String :=
  ⟨fun q => if q = "L" then ["a", "b", "b"] else ["b", "a", "b"], id⟩

/-! ## Claims about the client interaction of the comparator -/

/-- Example client used by the C7 witness. -/
def clientEx : ClientState Bool := ⟨fun _ => [[true]], []⟩

/-! ## Claims about the test orchestrator -/

/-- Replace the comparator collaborator of an environment. -/
def withCheckMatch {DF : Type} (env : TestEnv DF)
    (cm : String → String → Except String Bool) : TestEnv DF :=
  ⟨env.runQueryDf, env.readFile, env.dryRunStatementType, cm,
    env.readCsv, env.dfEquals⟩

/-- Replace the dry-run collaborator of an environment. -/
def withDryRun {DF : Type} (env : TestEnv DF)
    (d : String → Except String String) : TestEnv DF :=
  ⟨env.runQueryDf, env.readFile, d, env.checkMatch,
    env.readCsv, env.dfEquals⟩

/-- Example environment used by the orchestrator witnesses: dataframes
are natural numbers. -/
def envEx : TestEnv Nat :=
  ⟨fun _ _ => .ok 7, fun _ => .ok ("SELECT 2"), fun _ => .ok ("SELECT"),
    fun _ _ => .ok true, fun _ => .ok 7, fun a b => a == b⟩

/-- Example parser used by the C6 witness. -/
def parseEx : String → MagicArgs :=
  fun _ => ⟨"bigquery", none, none, none, false, none⟩

/-- Environment whose csv reader fails, used by the C8 witness. -/
def envExBad : TestEnv Nat :=
  ⟨fun _ _ => .ok 7, fun _ => .ok ("SELECT 2"), fun _ => .ok ("SELECT"),
    fun _ _ => .ok true, fun _ => .error ("No such file"),
    fun a b => a == b⟩

/-- Environment whose dry run reports a non-SELECT statement, used by
the C9 witness. -/
def envExScript : TestEnv Nat :=
  ⟨fun _ _ => .ok 7, fun _ => .ok ("SELECT 1; SELECT 2;"),
    fun _ => .ok ("SCRIPT"), fun _ _ => .ok true, fun _ => .ok 7,
    fun a b => a == b⟩

/-! ## Template lines and their dedented forms -/

/-- Margin removed by `textwrap.dedent` from the comparator template. -/
def sp12L : List Char := "            ".data

/-- The 6 spaces of net indentation left on embedded query lines. -/
def sp6L : List Char := "      ".data

/-- The 18-space interpolation prefix, as a character list. -/
def sp18L : List Char := "                  ".data

/-- Lines of `tplA` (all but the trailing empty piece). -/
def talLines : List (List Char) :=
  ["            SELECT".data,
   "              NOT EXISTS(".data,
   "              SELECT".data,
   "                *".data,
   "              FROM (".data,
   "                SELECT".data,
   "                  FORMAT(\"%T\", actual) AS json_string,".data,
   "                  COUNT(*) AS count".data,
   "                FROM (".data]

/-- First line of `tplB`, completing the first embedded query's line. -/
def tb1 : List Char := " ) AS actual".data

/-- Remaining full lines of `tplB`. -/
def tbMid : List (List Char) :=
  ["                GROUP BY".data,
   "                  json_string) AS actual".data,
   "              FULL JOIN (".data,
   "                SELECT".data,
   "                  FORMAT(\"%T\", expected) AS json_string,".data,
   "                  COUNT(*) AS count".data,
   "                FROM (".data]

/-- First line of `tplC`, completing the second embedded query's line. -/
def tc1 : List Char := " ) AS expected".data

/-- Remaining full lines of `tplC` (before its 12-space last line). -/
def tcMid : List (List Char) :=
  ["                GROUP BY".data,
   "                  json_string) AS expected".data,
   "              USING".data,
   "                (json_string)".data,
   "              WHERE".data,
   "                (actual.count = expected.count) IS NOT TRUE )".data]

/-! ## Dedented template and embedded-query shapes -/

/-- The per-line transformation applied by `textwrap.indent` inside the
comparator (18-space prefix on lines with content). -/
def fQL (l : List Char) : List Char :=
  if l.all pyWs then l else sp18L ++ l

/-- An indented query line after `dedent`'s normalization pass. -/
def g18L (l : List Char) : List Char :=
  if l.all spaceTab then [] else sp18L ++ l

/-- An embedded query line as it appears in the final statement: blank
lines are emptied, others keep a net 6-space indent. -/
def gQL (l : List Char) : List Char :=
  if l.all spaceTab then [] else sp6L ++ l

/-- The margin-stripping pass of `dedent` for the comparator's 12-space
margin. -/
def dmL (l : List Char) : List Char :=
  if isPre sp12L l then l.drop sp12L.length else l

/-- How a query ends up embedded in the comparator statement: rstripped,
split into lines, whitespace-only lines emptied, the others indented by
six spaces. -/
def embedSub (q : List Char) : List Char :=
  joinNl ((splitNl (rstripL q)).map gQL)

/-- A query whose whitespace-only lines (if any) consist of spaces and
tabs only — no vertical-tab/form-feed/carriage-return-only lines.  Any
ordinary SQL text satisfies this. -/
def wsLinesSafe (q : List Char) : Prop :=
  ∀ l ∈ splitNl (rstripL q), l.all pyWs = true → l.all spaceTab = true

instance (q : List Char) : Decidable (wsLinesSafe q) := by
  unfold wsLinesSafe
  infer_instance

/-- Dedented lines of `tplA`. -/
def dTal : List (List Char) :=
  ["SELECT".data,
   "  NOT EXISTS(".data,
   "  SELECT".data,
   "    *".data,
   "  FROM (".data,
   "    SELECT".data,
   "      FORMAT(\"%T\", actual) AS json_string,".data,
   "      COUNT(*) AS count".data,
   "    FROM (".data]

/-- Dedented full lines of `tplB`. -/
def dTb : List (List Char) :=
  ["    GROUP BY".data,
   "      json_string) AS actual".data,
   "  FULL JOIN (".data,
   "    SELECT".data,
   "      FORMAT(\"%T\", expected) AS json_string,".data,
   "      COUNT(*) AS count".data,
   "    FROM (".data]

/-- Dedented full lines of `tplC`. -/
def dTc : List (List Char) :=
  ["    GROUP BY".data,
   "      json_string) AS expected".data,
   "  USING".data,
   "    (json_string)".data,
   "  WHERE".data,
   "    (actual.count = expected.count) IS NOT TRUE )".data]

/-- Dedented template segment before the first embedded query: the
`SELECT NOT EXISTS(` wrapper, the `FORMAT("%T", ...)` serialization of
the `actual` side, its `COUNT(*)`, down to the opening of the embedded
query block. -/
def ddA : List Char :=
  "SELECT\n  NOT EXISTS(\n  SELECT\n    *\n  FROM (\n    SELECT\n      FORMAT(\"%T\", actual) AS json_string,\n      COUNT(*) AS count\n    FROM (\n".data

/-- Dedented template segment between the embedded queries: closing the
`actual` block, `GROUP BY json_string`, the `FULL JOIN` with the
serialized and counted `expected` side. -/
def ddB : List Char :=
  " ) AS actual\n    GROUP BY\n      json_string) AS actual\n  FULL JOIN (\n    SELECT\n      FORMAT(\"%T\", expected) AS json_string,\n      COUNT(*) AS count\n    FROM (\n".data

/-- Dedented template segment after the second embedded query: closing
the `expected` block, its `GROUP BY`, the `USING (json_string)` join
condition and the count-mismatch `WHERE` filter under `NOT EXISTS`. -/
def ddC : List Char :=
  " ) AS expected\n    GROUP BY\n      json_string) AS expected\n  USING\n    (json_string)\n  WHERE\n    (actual.count = expected.count) IS NOT TRUE )\n".data

/-- Tail of the indents contributed by `tplA`'s lines. -/
def talIndsTail : List (List Char) :=
  ["              ".data, "              ".data, "                ".data,
   "              ".data, "                ".data, "                  ".data,
   "                  ".data, "                ".data]

/-! ## Theorems -/

/-! ## Correctness of the comparator pipeline -/

theorem lookup_map_self (L : List String) (f : String → Nat) (s : String) :
    (L.map (fun t => (t, f t))).lookup s =
      if s ∈ L then some (f s) else none := by
  induction L with
  | nil => simp
  | cons t ts ih =>
    by_cases h : s = t
    · subst h
      simp [List.lookup]
    · have hb : (s == t) = false := beq_false_of_ne h
      simp [List.lookup, hb, h, ih]

theorem lookup_groupCount (E : List String) (s : String) :
    (groupCount E).lookup s = if s ∈ E then some (E.count s) else none := by
  unfold groupCount
  rw [lookup_map_self]
  simp [List.mem_dedup]

theorem mem_groupCount {p : String × Nat} {A : List String} :
    p ∈ groupCount A ↔ p.1 ∈ A ∧ p.2 = A.count p.1 := by
  unfold groupCount
  constructor
  · intro h
    rcases List.mem_map.mp h with ⟨t, ht, hp⟩
    cases hp
    exact ⟨List.mem_dedup.mp ht, rfl⟩
  · rcases p with ⟨s, n⟩
    rintro ⟨hs, hn⟩
    have hn' : n = A.count s := hn
    subst hn'
    exact List.mem_map.mpr ⟨s, List.mem_dedup.mpr hs, rfl⟩

/-- The heart of the comparator: the generated statement's mismatch rows
are empty exactly when every serialized value occurs equally often on
both sides. -/
theorem mismatch_empty_iff (A E : List String) :
    (mismatchRows (groupCount A) (groupCount E)).isEmpty = true ↔
      ∀ s, A.count s = E.count s := by
  unfold mismatchRows
  rw [List.isEmpty_iff, List.filter_eq_nil_iff]
  constructor
  · intro h s
    by_cases hA : s ∈ A
    · have hmem : (s, some (A.count s), (groupCount E).lookup s) ∈
          fullJoinUsing (groupCount A) (groupCount E) := by
        unfold fullJoinUsing
        exact List.mem_append_left _
          (List.mem_map.mpr ⟨(s, A.count s), mem_groupCount.mpr ⟨hA, rfl⟩, rfl⟩)
      have hne := h _ hmem
      rw [lookup_groupCount] at hne
      by_cases hE : s ∈ E
      · simp only [hE, if_true, eqIsNotTrue] at hne
        by_contra hcc
        exact hne (by simpa using hcc)
      · simp [hE, eqIsNotTrue] at hne
    · by_cases hE : s ∈ E
      · have hmem : (s, (none : Option Nat), some (E.count s)) ∈
            fullJoinUsing (groupCount A) (groupCount E) := by
          unfold fullJoinUsing
          refine List.mem_append_right _
            (List.mem_map.mpr ⟨(s, E.count s), ?_, rfl⟩)
          rw [List.mem_filter]
          refine ⟨mem_groupCount.mpr ⟨hE, rfl⟩, ?_⟩
          rw [lookup_groupCount]
          simp [hA]
        have := h _ hmem
        simp [eqIsNotTrue] at this
      · simp [List.count_eq_zero.mpr hA, List.count_eq_zero.mpr hE]
  · intro h r hr
    unfold fullJoinUsing at hr
    rcases List.mem_append.mp hr with h1 | h2
    · rcases List.mem_map.mp h1 with ⟨p, hp, rfl⟩
      obtain ⟨hpA, hpc⟩ := mem_groupCount.mp hp
      have hsE : p.1 ∈ E := by
        have hpos : 0 < A.count p.1 := List.count_pos_iff.mpr hpA
        rw [h p.1] at hpos
        exact List.count_pos_iff.mp hpos
      rw [lookup_groupCount]
      simp [hsE, eqIsNotTrue, hpc, h p.1]
    · rcases List.mem_map.mp h2 with ⟨p, hp, rfl⟩
      rw [List.mem_filter] at hp
      obtain ⟨hpE, hlk⟩ := hp
      obtain ⟨hE, _⟩ := mem_groupCount.mp hpE
      rw [lookup_groupCount] at hlk
      by_cases hA : p.1 ∈ A
      · simp [hA] at hlk
      · exfalso
        have hpos : 0 < E.count p.1 := List.count_pos_iff.mpr hE
        rw [← h p.1, List.count_eq_zero.mpr hA] at hpos
        exact Nat.lt_irrefl 0 hpos

/-- C1: the SQL statement built by
`query_to_check_that_two_query_results_match`, evaluated under the
abstract warehouse semantics, returns true exactly when the two queries
produce identical multisets of rows — order-independent and sensitive to
how often each row occurs on each side.  (The abstract warehouse
serializes distinct rows to distinct strings, as `FORMAT("%T", row)` is
a literal rendering of the whole row.) -/
theorem claim_C1 {Row : Type} [DecidableEq Row] (w : Warehouse Row)
    (hinj : Function.Injective w.fmt) (left right : String) :
    comparatorSqlSemantics w left right = true ↔
      (↑(w.evalQ left) : Multiset Row) = ↑(w.evalQ right) := by
  unfold comparatorSqlSemantics
  rw [mismatch_empty_iff]
  constructor
  · intro h
    rw [Multiset.ext]
    intro a
    have hc := h (w.fmt a)
    rw [List.count_map_of_injective _ w.fmt hinj,
      List.count_map_of_injective _ w.fmt hinj] at hc
    simpa using hc
  · intro h s
    have hperm : (w.evalQ left).Perm (w.evalQ right) :=
      Multiset.coe_eq_coe.mp h
    exact (hperm.map w.fmt).count_eq s

theorem claim_C1_witness :
    comparatorSqlSemantics wEx "L" "R" = true ↔
      (↑(wEx.evalQ "L") : Multiset String) = ↑(wEx.evalQ "R") :=
  claim_C1 wEx (fun _ _ h => h) "L" "R"

/-- C3: the boolean computed by the comparator statement is symmetric in
the two queries. -/
theorem claim_C3 {Row : Type} (w : Warehouse Row) (left right : String) :
    comparatorSqlSemantics w left right =
      comparatorSqlSemantics w right left := by
  unfold comparatorSqlSemantics
  rw [Bool.eq_iff_iff, mismatch_empty_iff, mismatch_empty_iff]
  exact ⟨fun h s => (h s).symm, fun h s => (h s).symm⟩

/-- C7: the comparator method submits exactly one statement — the built
comparator SQL — to the client, derives its result from the first column
of that statement's first result row, and consults nothing but that
statement's response (no client-side row comparison). -/
theorem claim_C7 {Cell : Type} (st : ClientState Cell)
    (left right : String) :
    (query_to_check_that_two_query_results_match st left right).1.submitted =
        st.submitted ++ [comparatorSql left right] ∧
    (query_to_check_that_two_query_results_match st left right).2 =
        ((st.respond (comparatorSql left right)).head?).bind List.head? ∧
    ∀ st' : ClientState Cell,
      st'.respond (comparatorSql left right) =
          st.respond (comparatorSql left right) →
        (query_to_check_that_two_query_results_match st' left right).2 =
          (query_to_check_that_two_query_results_match st left right).2 := by
  refine ⟨rfl, rfl, ?_⟩
  intro st' h
  unfold query_to_check_that_two_query_results_match
  simp [h]

theorem claim_C7_witness :
    (query_to_check_that_two_query_results_match clientEx "SELECT 1 a"
        "SELECT 0 + 1 a").1.submitted =
        clientEx.submitted ++ [comparatorSql "SELECT 1 a" "SELECT 0 + 1 a"] ∧
    (query_to_check_that_two_query_results_match clientEx "SELECT 1 a"
        "SELECT 0 + 1 a").2 =
        ((clientEx.respond (comparatorSql "SELECT 1 a"
          "SELECT 0 + 1 a")).head?).bind List.head? ∧
    ∀ st' : ClientState Bool,
      st'.respond (comparatorSql "SELECT 1 a" "SELECT 0 + 1 a") =
          clientEx.respond (comparatorSql "SELECT 1 a" "SELECT 0 + 1 a") →
        (query_to_check_that_two_query_results_match st' "SELECT 1 a"
            "SELECT 0 + 1 a").2 =
          (query_to_check_that_two_query_results_match clientEx "SELECT 1 a"
            "SELECT 0 + 1 a").2 :=
  claim_C7 clientEx "SELECT 1 a" "SELECT 0 + 1 a"

/-- C4: with a csv file and no sql file, the expectation is compared to
the query result client-side with dataframe equality and exactly one
pass/fail marker is printed — `✓` if the dataframes are equal and `✕`
otherwise — and the outcome is independent of the warehouse comparator
collaborators (no comparator SQL is sent for this mode). -/
theorem claim_C4 {DF : Type} (env : TestEnv DF) (q f : String) (r : Bool)
    (lbl : List (String × String)) (df e : DF)
    (hq : env.runQueryDf q lbl = .ok df) (hc : env.readCsv f = .ok e) :
    test env q (some f) none r lbl =
        ⟨[mark (env.dfEquals e df)], [], some df, none⟩ ∧
    ∀ cm d, test (withDryRun (withCheckMatch env cm) d) q (some f) none r
        lbl = test env q (some f) none r lbl := by
  constructor
  · simp [test, hq, csvStep, hc]
  · intro cm d
    simp [test, withDryRun, withCheckMatch, csvStep, hq, hc]

theorem claim_C4_witness :
    test envEx "SELECT 1" (some "a.csv") none false [] =
        ⟨[mark (envEx.dfEquals 7 7)], [], some 7, none⟩ ∧
    ∀ cm d, test (withDryRun (withCheckMatch envEx cm) d) "SELECT 1"
        (some "a.csv") none false [] =
      test envEx "SELECT 1" (some "a.csv") none false [] :=
  claim_C4 envEx "SELECT 1" "a.csv" false [] 7 7 rfl rfl

/-- C5: when both a csv file and a sql file are given, `test` raises a
ValueError with this message, and does so before consulting any
collaborator — in particular before any query reaches the warehouse. -/
theorem claim_C5 {DF : Type} (env : TestEnv DF) (q : String)
    (csv_file sql_file : Option String) (r : Bool)
    (lbl : List (String × String)) (h1 : csv_file.isSome = true)
    (h2 : sql_file.isSome = true) :
    test env q csv_file sql_file r lbl =
        ⟨[], [], none, some ("Please specify only sql_file or csv_file.")⟩ ∧
    ∀ env' : TestEnv DF,
      test env' q csv_file sql_file r lbl = test env q csv_file sql_file r
        lbl := by
  constructor
  · simp [test, h1, h2]
  · intro env'
    simp [test, h1, h2]

theorem claim_C5_witness :
    test envEx "SELECT 1" (some "a.csv") (some "b.sql") false [] =
        ⟨[], [], none, some ("Please specify only sql_file or csv_file.")⟩ ∧
    ∀ env' : TestEnv Nat,
      test env' "SELECT 1" (some "a.csv") (some "b.sql") false [] =
        test envEx "SELECT 1" (some "a.csv") (some "b.sql") false [] :=
  claim_C5 envEx "SELECT 1" (some "a.csv") (some "b.sql") false [] rfl rfl

theorem csvStep_ret {DF : Type} {env : TestEnv DF} {csv : Option String}
    {actual d : DF} {outs : List String}
    (h : (csvStep env csv actual outs).ret = some d) : d = actual := by
  rcases csv with _ | f
  · simp [csvStep] at h
    exact h.symm
  · rcases hr : env.readCsv f with e | ex
    · simp [csvStep, hr, errOut] at h
    · simp [csvStep, hr] at h
      exact h.symm

theorem test_ret_ok {DF : Type} {env : TestEnv DF} {q : String}
    {csv sql : Option String} {r : Bool} {lbl : List (String × String)}
    {d : DF} (h : (test env q csv sql r lbl).ret = some d) :
    env.runQueryDf q lbl = .ok d := by
  unfold test at h
  split at h
  · simp at h
  · split at h
    · simp [errOut] at h
    · rename_i actual heq
      split at h
      · rw [heq, csvStep_ret h]
      · split at h
        · simp [errOut] at h
        · split at h
          · simp [errOut] at h
          · split at h
            · simp [errOut] at h
            · rw [heq, csvStep_ret h]

/-- C6: the magic entry point delegates to the orchestrator with the
flags parsed from the line and the cell body as the query under test,
and whenever it returns a dataframe, that dataframe is exactly the
result of running the cell body against the warehouse. -/
theorem claim_C6 {DF : Type} (parseLine : String → MagicArgs)
    (env : TestEnv DF) (line cell : String) (df : DF)
    (h : (sqlMagic parseLine env line cell).ret = some df) :
    env.runQueryDf cell (labelsOf (parseLine line)) = .ok df ∧
    sqlMagic parseLine env line cell =
      test env cell (parseLine line).csv_file (parseLine line).sql_file
        (parseLine line).reliable (labelsOf (parseLine line)) :=
  ⟨test_ret_ok h, rfl⟩

theorem claim_C6_witness :
    envEx.runQueryDf "SELECT 1" (labelsOf (parseEx "bigquery")) = .ok 7 ∧
    sqlMagic parseEx envEx "bigquery" "SELECT 1" =
      test envEx "SELECT 1" (parseEx "bigquery").csv_file
        (parseEx "bigquery").sql_file (parseEx "bigquery").reliable
        (labelsOf (parseEx "bigquery")) :=
  claim_C6 parseEx envEx "bigquery" "SELECT 1" 7 rfl

theorem csvStep_swallow {DF : Type} (env : TestEnv DF)
    (csv : Option String) (actual : DF) (outs : List String) :
    (csvStep env csv actual outs).raised = none ∧
    ((csvStep env csv actual outs).ret = none ↔
      ∃ m, (csvStep env csv actual outs).stderr = ["ERROR:\n" ++ m]) := by
  rcases csv with _ | f
  · simp [csvStep]
  · rcases hr : env.readCsv f with e | ex
    · refine ⟨by simp [csvStep, hr, errOut], ?_, ?_⟩
      · intro _
        exact ⟨e, by simp [csvStep, hr, errOut]⟩
      · intro _
        simp [csvStep, hr, errOut]
    · refine ⟨by simp [csvStep, hr], ?_, ?_⟩
      · intro hnone
        simp [csvStep, hr] at hnone
      · rintro ⟨m, hm⟩
        simp [csvStep, hr] at hm

/-- C8: once past the exclusivity check, `test` never propagates an
exception: it returns `None` exactly when some step failed, in which
case the failure is reported on stderr as an `ERROR:` message. -/
theorem claim_C8 {DF : Type} (env : TestEnv DF) (q : String)
    (csv_file sql_file : Option String) (r : Bool)
    (lbl : List (String × String))
    (h : ¬(csv_file.isSome = true ∧ sql_file.isSome = true)) :
    (test env q csv_file sql_file r lbl).raised = none ∧
    ((test env q csv_file sql_file r lbl).ret = none ↔
      ∃ m, (test env q csv_file sql_file r lbl).stderr =
        ["ERROR:\n" ++ m]) := by
  have hg : (csv_file.isSome && sql_file.isSome) = false := by
    rcases csv_file <;> rcases sql_file <;> simp_all
  unfold test
  rw [hg]
  simp only [Bool.false_eq_true, if_false]
  rcases hq : env.runQueryDf q lbl with e | actual
  · exact ⟨rfl, ⟨fun _ => ⟨e, rfl⟩, fun _ => rfl⟩⟩
  · dsimp only
    rcases sql_file with _ | f
    · exact csvStep_swallow env csv_file actual []
    · dsimp only
      rcases hf : env.readFile f with e | es
      · exact ⟨rfl, ⟨fun _ => ⟨e, rfl⟩, fun _ => rfl⟩⟩
      · dsimp only
        rcases hv : (if !r then validate_query env es else Except.ok ())
          with e | u
        · exact ⟨rfl, ⟨fun _ => ⟨e, rfl⟩, fun _ => rfl⟩⟩
        · dsimp only
          rcases hm : env.checkMatch es q with e | b
          · exact ⟨rfl, ⟨fun _ => ⟨e, rfl⟩, fun _ => rfl⟩⟩
          · exact csvStep_swallow env csv_file actual [mark b]

theorem claim_C8_witness :
    (test envExBad "SELECT 1" (some "a.csv") none false []).raised =
        none ∧
    ((test envExBad "SELECT 1" (some "a.csv") none false []).ret = none ↔
      ∃ m, (test envExBad "SELECT 1" (some "a.csv") none false []).stderr =
        ["ERROR:\n" ++ m]) :=
  claim_C8 envExBad "SELECT 1" (some "a.csv") none false []
    (by simp)

/-- C9: with a sql file and `reliable` false, the expected SQL read from
the file is dry-run-validated before the comparator runs; the test
errors, printing no marker, exactly when the dry-run statement type is
not SELECT; with `reliable` true the validation collaborator is never
consulted. -/
theorem claim_C9 {DF : Type} (env : TestEnv DF) (q f : String)
    (lbl : List (String × String)) (df : DF) (es st : String) (b : Bool)
    (hq : env.runQueryDf q lbl = .ok df) (hf : env.readFile f = .ok es)
    (hd : env.dryRunStatementType es = .ok st)
    (hc : env.checkMatch es q = .ok b) :
    (st ≠ "SELECT" →
      test env q none (some f) false lbl =
        ⟨[], ["ERROR:\n" ++ "Statement type must be SELECT"], none,
          none⟩) ∧
    (st = "SELECT" →
      test env q none (some f) false lbl =
        ⟨[mark b], [], some df, none⟩) ∧
    (∀ d, test (withDryRun env d) q none (some f) true lbl =
      test env q none (some f) true lbl) := by
  refine ⟨?_, ?_, ?_⟩
  · intro hne
    simp [test, hq, hf, validate_query, hd, hne, errOut]
  · intro he
    subst he
    simp [test, hq, hf, validate_query, hd, hc, csvStep]
  · intro d
    simp [test, withDryRun, hq, hf, hc, csvStep]

theorem claim_C9_witness :
    ("SCRIPT" ≠ "SELECT" →
      test envExScript "SELECT 1" none (some "b.sql") false [] =
        ⟨[], ["ERROR:\n" ++ "Statement type must be SELECT"], none,
          none⟩) ∧
    ("SCRIPT" = "SELECT" →
      test envExScript "SELECT 1" none (some "b.sql") false [] =
        ⟨[mark true], [], some 7, none⟩) ∧
    (∀ d, test (withDryRun envExScript d) "SELECT 1" none (some "b.sql")
        true [] =
      test envExScript "SELECT 1" none (some "b.sql") true []) :=
  claim_C9 envExScript "SELECT 1" "b.sql" [] 7 "SELECT 1; SELECT 2;"
    "SCRIPT" true rfl rfl rfl rfl

/-- C10: with neither expectation source, nothing is printed to stdout,
no comparison is performed (the outcome depends only on the warehouse
query collaborator), and the query under test is still executed with its
result dataframe returned unchanged. -/
theorem claim_C10 {DF : Type} (env : TestEnv DF) (q : String) (r : Bool)
    (lbl : List (String × String)) :
    (test env q none none r lbl).stdout = [] ∧
    (∀ df, env.runQueryDf q lbl = .ok df →
      test env q none none r lbl = ⟨[], [], some df, none⟩) ∧
    (∀ env' : TestEnv DF, env'.runQueryDf = env.runQueryDf →
      test env' q none none r lbl = test env q none none r lbl) := by
  refine ⟨?_, ?_, ?_⟩
  · rcases hq : env.runQueryDf q lbl with e | df <;>
      simp [test, csvStep, errOut, hq]
  · intro df hq
    simp [test, csvStep, hq]
  · intro env' he
    simp [test, csvStep, errOut, he]

theorem claim_C10_witness :
    (test envEx "SELECT 1" none none false []).stdout = [] ∧
    (∀ df, envEx.runQueryDf "SELECT 1" [] = .ok df →
      test envEx "SELECT 1" none none false [] =
        ⟨[], [], some df, none⟩) ∧
    (∀ env' : TestEnv Nat, env'.runQueryDf = envEx.runQueryDf →
      test env' "SELECT 1" none none false [] =
        test envEx "SELECT 1" none none false []) :=
  claim_C10 envEx "SELECT 1" false []

/-! ## Structure of the generated comparator SQL (toolkit) -/

theorem splitNl_ne_nil (t : List Char) : splitNl t ≠ [] := by
  induction t with
  | nil => simp [splitNl]
  | cons c cs ih =>
    unfold splitNl
    by_cases hc : c = '\n'
    · simp [hc]
    · simp only [hc, if_false]
      rcases h : splitNl cs with _ | ⟨l, ls⟩
      · exact absurd h ih
      · simp

theorem splitNl_no_newline {l : List Char} (h : '\n' ∉ l) :
    splitNl l = [l] := by
  induction l with
  | nil => rfl
  | cons c cs ih =>
    have hc : c ≠ '\n' := fun hcc => h (hcc ▸ List.mem_cons_self c cs)
    have hcs : '\n' ∉ cs := fun hm => h (List.mem_cons_of_mem c hm)
    unfold splitNl
    simp only [hc, if_false]
    rw [ih hcs]

theorem splitNl_append_cons {x : List Char} (y : List Char)
    (hx : '\n' ∉ x) : splitNl (x ++ '\n' :: y) = x :: splitNl y := by
  induction x with
  | nil => simp [splitNl]
  | cons c cs ih =>
    have hc : c ≠ '\n' := fun hcc => hx (hcc ▸ List.mem_cons_self c cs)
    have hcs : '\n' ∉ cs := fun hm => hx (List.mem_cons_of_mem c hm)
    rw [List.cons_append]
    conv_lhs => rw [splitNl]
    simp only [hc, if_false]
    rw [ih hcs]

theorem mem_splitNl_no_newline {t l : List Char} (h : l ∈ splitNl t) :
    '\n' ∉ l := by
  induction t generalizing l with
  | nil =>
    simp [splitNl] at h
    simp [h]
  | cons c cs ih =>
    unfold splitNl at h
    by_cases hc : c = '\n'
    · simp only [hc, if_true] at h
      rcases List.mem_cons.mp h with rfl | hm
      · simp
      · exact ih hm
    · simp only [hc, if_false] at h
      rcases hs : splitNl cs with _ | ⟨m, ms⟩
      · exact absurd hs (splitNl_ne_nil cs)
      · rw [hs] at h
        rcases List.mem_cons.mp h with rfl | hm
        · intro hin
          rcases List.mem_cons.mp hin with h1 | h2
          · exact hc h1.symm
          · exact ih (hs ▸ List.mem_cons_self m ms) h2
        · exact ih (hs ▸ List.mem_cons_of_mem m hm)

theorem joinNl_append {M N : List (List Char)} (hM : M ≠ [])
    (hN : N ≠ []) : joinNl (M ++ N) = joinNl M ++ '\n' :: joinNl N := by
  induction M with
  | nil => exact absurd rfl hM
  | cons m M' ih =>
    rcases M' with _ | ⟨m2, M''⟩
    · rcases N with _ | ⟨n, N'⟩
      · exact absurd rfl hN
      · simp [joinNl]
    · show m ++ '\n' :: joinNl ((m2 :: M'') ++ N) =
        joinNl (m :: m2 :: M'') ++ '\n' :: joinNl N
      rw [ih (by simp)]
      show m ++ '\n' :: (joinNl (m2 :: M'') ++ '\n' :: joinNl N) =
        (m ++ '\n' :: joinNl (m2 :: M'')) ++ '\n' :: joinNl N
      simp

theorem splitNl_joinNl {M : List (List Char)} (hM : M ≠ [])
    (hfree : ∀ l ∈ M, '\n' ∉ l) : splitNl (joinNl M) = M := by
  induction M with
  | nil => exact absurd rfl hM
  | cons m M' ih =>
    rcases M' with _ | ⟨m2, M''⟩
    · exact splitNl_no_newline (hfree m (List.mem_cons_self m _))
    · have h1 : joinNl (m :: m2 :: M'') = m ++ '\n' :: joinNl (m2 :: M'') :=
        rfl
      rw [h1, splitNl_append_cons _ (hfree m (List.mem_cons_self m _)),
        ih (by simp) (fun l hl => hfree l (List.mem_cons_of_mem m hl))]

theorem joinNl_concat_append (P : List (List Char)) (a b : List Char) :
    joinNl (P ++ [a ++ b]) = joinNl (P ++ [a]) ++ b := by
  induction P with
  | nil => rfl
  | cons p P' ih =>
    rcases P' with _ | ⟨p2, P''⟩
    · simp [joinNl]
    · show p ++ '\n' :: joinNl ((p2 :: P'') ++ [a ++ b]) =
        joinNl (p :: (p2 :: P'') ++ [a]) ++ b
      rw [ih]
      show p ++ '\n' :: (joinNl ((p2 :: P'') ++ [a]) ++ b) =
        (p ++ '\n' :: joinNl ((p2 :: P'') ++ [a])) ++ b
      simp

theorem splitNl_concat_last (Q₀ : List Char) (c : Char) (hc : c ≠ '\n') :
    ∃ M₀ m, splitNl (Q₀ ++ [c]) = M₀ ++ [m ++ [c]] := by
  induction Q₀ with
  | nil =>
    refine ⟨[], [], ?_⟩
    simp [splitNl, hc]
  | cons d Q' ih =>
    obtain ⟨M₀, m, hm⟩ := ih
    by_cases hd : d = '\n'
    · refine ⟨[] :: M₀, m, ?_⟩
      rw [List.cons_append]
      unfold splitNl
      simp only [hd, if_true]
      rw [hm]
      simp
    · rcases M₀ with _ | ⟨x, M₀'⟩
      · refine ⟨[], d :: m, ?_⟩
        rw [List.cons_append]
        unfold splitNl
        simp only [hd, if_false]
        rw [hm]
        simp
      · refine ⟨(d :: x) :: M₀', m, ?_⟩
        rw [List.cons_append]
        unfold splitNl
        simp only [hd, if_false]
        rw [hm]
        simp

theorem dropWhile_cons_head {p : Char → Bool} {l t : List Char} {c : Char}
    (h : l.dropWhile p = c :: t) : p c = false := by
  induction l with
  | nil => simp [List.dropWhile] at h
  | cons a l' ih =>
    rw [List.dropWhile_cons] at h
    by_cases ha : p a = true
    · rw [if_pos ha] at h
      exact ih h
    · rw [if_neg ha] at h
      cases h
      exact Bool.eq_false_iff.mpr ha

theorem rstripL_last_not_ws {q Q₀ : List Char} {c : Char}
    (h : rstripL q = Q₀ ++ [c]) : pyWs c = false := by
  unfold rstripL at h
  have h2 : q.reverse.dropWhile pyWs = c :: Q₀.reverse := by
    have := congrArg List.reverse h
    rwa [List.reverse_reverse, List.reverse_append, List.reverse_singleton,
      List.singleton_append] at this
  exact dropWhile_cons_head h2

theorem all_spaceTab_pyWs {l : List Char} (h : l.all spaceTab = true) :
    l.all pyWs = true := by
  rw [List.all_eq_true] at h ⊢
  intro c hc
  have hst := h c hc
  simp only [spaceTab] at hst
  simp only [pyWs]
  have hor : c = ' ' ∨ c = '\t' := by simpa using hst
  rcases hor with h1 | h1 <;> simp [h1]

theorem takeWhile_append_all {p : Char → Bool} {xs : List Char}
    (ys : List Char) (h : xs.all p = true) :
    (xs ++ ys).takeWhile p = xs ++ ys.takeWhile p := by
  induction xs with
  | nil => simp
  | cons a l ih =>
    rw [List.all_cons, Bool.and_eq_true] at h
    rw [List.cons_append, List.takeWhile_cons, if_pos h.1, ih h.2]
    simp

theorem isPre_append (a b : List Char) : isPre a (a ++ b) = true := by
  induction a with
  | nil => rfl
  | cons x xs ih =>
    rw [List.cons_append]
    unfold isPre
    simp [ih]

theorem commonPre_eq_left {a b : List Char} (h : isPre a b = true) :
    commonPre a b = a := by
  induction a generalizing b with
  | nil => rfl
  | cons x xs ih =>
    rcases b with _ | ⟨y, ys⟩
    · simp [isPre] at h
    · unfold isPre at h
      rw [Bool.and_eq_true] at h
      have hxy : x = y := by
        have := h.1
        simpa using this
      unfold commonPre
      rw [if_pos hxy, ih h.2]

theorem foldl_commonPre_fix {a : List Char} {is : List (List Char)}
    (h : ∀ j ∈ is, isPre a j = true) : is.foldl commonPre a = a := by
  induction is with
  | nil => rfl
  | cons j js ih =>
    rw [List.foldl_cons, commonPre_eq_left (h j (List.mem_cons_self j js))]
    exact ih (fun i hi => h i (List.mem_cons_of_mem j hi))

set_option maxRecDepth 10000 in
theorem tplA_data : tplA.data = joinNl talLines ++ ['\n'] := by decide

set_option maxRecDepth 10000 in
theorem tplB_data :
    tplB.data = tb1 ++ '\n' :: (joinNl tbMid ++ ['\n']) := by decide

set_option maxRecDepth 10000 in
theorem tplC_data :
    tplC.data = tc1 ++ '\n' :: (joinNl tcMid ++ '\n' :: sp12L) := by decide

set_option maxRecDepth 10000 in
theorem ddA_eq : ddA = joinNl dTal ++ ['\n'] := by decide

set_option maxRecDepth 10000 in
theorem ddB_eq : ddB = tb1 ++ '\n' :: (joinNl dTb ++ ['\n']) := by decide

set_option maxRecDepth 10000 in
theorem ddC_eq : ddC = tc1 ++ '\n' :: (joinNl dTc ++ ['\n']) := by decide

set_option maxRecDepth 10000 in
theorem talLines_nbL : talLines.map nbL = talLines := by decide

set_option maxRecDepth 10000 in
theorem tbMid_nbL : tbMid.map nbL = tbMid := by decide

set_option maxRecDepth 10000 in
theorem tcMid_nbL : tcMid.map nbL = tcMid := by decide

set_option maxRecDepth 10000 in
theorem talLines_dmL : talLines.map dmL = dTal := by decide

set_option maxRecDepth 10000 in
theorem tbMid_dmL : tbMid.map dmL = dTb := by decide

set_option maxRecDepth 10000 in
theorem tcMid_dmL : tcMid.map dmL = dTc := by decide

theorem side_decomp {q : List Char} (hq : rstripL q ≠ []) :
    ∃ M₀ m c, splitNl (rstripL q) = M₀ ++ [m ++ [c]] ∧ pyWs c = false := by
  rcases List.eq_nil_or_concat (rstripL q) with h | ⟨Q₀, c, h⟩
  · exact absurd h hq
  · rw [List.concat_eq_append] at h
    have hc : pyWs c = false := rstripL_last_not_ws h
    have hcn : c ≠ '\n' := by
      intro hh
      rw [hh] at hc
      exact absurd hc (by decide)
    obtain ⟨M₀, m, hm⟩ := splitNl_concat_last Q₀ c hcn
    exact ⟨M₀, m, c, by rw [h]; exact hm, hc⟩

theorem indentL_decomp {Q mc : List Char} {M₀ : List (List Char)}
    (h : splitNl Q = M₀ ++ [mc]) (hmc : mc.all pyWs = false) :
    indentL sp18L Q = joinNl (M₀.map fQL ++ [sp18L ++ mc]) := by
  unfold indentL
  rw [h, List.map_append]
  have h1 : [mc].map (fun l => if l.all pyWs then l else sp18L ++ l) =
      [sp18L ++ mc] := by
    simp only [List.map_cons, List.map_nil, hmc, Bool.false_eq_true,
      if_false]
  rw [h1]
  rfl

theorem all_spaceTab_false_of_pyWs {m : List Char}
    (h : m.all pyWs = false) : m.all spaceTab = false := by
  rcases hb : m.all spaceTab
  · rfl
  · exact absurd (all_spaceTab_pyWs hb) (by rw [h]; exact Bool.false_ne_true)

theorem map_nb_fQ {M : List (List Char)}
    (HW : ∀ m ∈ M, m.all pyWs = true → m.all spaceTab = true) :
    (M.map fQL).map nbL = M.map g18L := by
  rw [List.map_map]
  apply List.map_congr_left
  intro m hm
  by_cases hp : m.all pyWs = true
  · have hst := HW m hm hp
    simp [Function.comp, fQL, nbL, g18L, hp, hst]
  · have hp' : m.all pyWs = false := Bool.eq_false_iff.mpr hp
    have hst : m.all spaceTab = false := all_spaceTab_false_of_pyWs hp'
    have hps : (sp18L ++ m).all spaceTab = false := by
      rw [List.all_append, hst, Bool.and_false]
    simp [Function.comp, fQL, nbL, g18L, hp', hst, hps]

theorem sp18L_eq : sp18L = sp12L ++ sp6L := by decide

theorem isPre_sp12_sp18 (z : List Char) :
    isPre sp12L (sp18L ++ z) = true := by
  rw [sp18L_eq, List.append_assoc]
  exact isPre_append _ _

theorem drop_sp12_sp18 (z : List Char) :
    (sp18L ++ z).drop sp12L.length = sp6L ++ z := by
  rw [sp18L_eq, List.append_assoc]
  exact List.drop_left' rfl

theorem isPre_sp12_nil : isPre sp12L [] = false := by decide

theorem map_dm_g18 (M : List (List Char)) :
    (M.map g18L).map dmL = M.map gQL := by
  rw [List.map_map]
  apply List.map_congr_left
  intro m _
  by_cases hst : m.all spaceTab = true
  · simp [Function.comp, g18L, gQL, dmL, hst, isPre_sp12_nil]
  · have hst' : m.all spaceTab = false := Bool.eq_false_iff.mpr hst
    simp [Function.comp, g18L, gQL, dmL, hst', isPre_sp12_sp18,
      drop_sp12_sp18]

theorem merged_nbL {x : List Char} (tail : List Char)
    (htail : tail.all spaceTab = false) :
    nbL ((sp18L ++ x) ++ tail) = (sp18L ++ x) ++ tail := by
  unfold nbL
  rw [List.all_append, htail, Bool.and_false]
  rfl

theorem merged_dmL (x tail : List Char) :
    dmL ((sp18L ++ x) ++ tail) = (sp6L ++ x) ++ tail := by
  unfold dmL
  rw [List.append_assoc, isPre_sp12_sp18, if_pos rfl, sp18L_eq,
    List.append_assoc, List.drop_left' rfl, ← List.append_assoc]

theorem margin_all {NL : List (List Char)}
    (hall : ∀ l ∈ NL, l = [] ∨ isPre sp12L (l.takeWhile spaceTab) = true) :
    ∀ j ∈ NL.filterMap idfL, isPre sp12L j = true := by
  intro j hj
  rcases List.mem_filterMap.mp hj with ⟨l, hl, hfl⟩
  unfold idfL at hfl
  by_cases he : l.isEmpty
  · rw [if_pos he] at hfl
    cases hfl
  · rw [if_neg he] at hfl
    rcases hall l hl with rfl | hp
    · exact absurd rfl he
    · rw [← Option.some_inj.mp hfl]
      exact hp

theorem marginOf_eq_sp12 {NL : List (List Char)}
    (hhead : ∃ T, NL.filterMap idfL = sp12L :: T)
    (hall : ∀ l ∈ NL, l = [] ∨ isPre sp12L (l.takeWhile spaceTab) = true) :
    marginOf NL = sp12L := by
  obtain ⟨T, hT⟩ := hhead
  unfold marginOf
  rw [hT]
  apply foldl_commonPre_fix
  intro j hj
  exact margin_all hall j (hT ▸ List.mem_cons_of_mem _ hj)

theorem joinNl_block {M REST : List (List Char)} (x tail : List Char)
    (hREST : REST ≠ []) :
    joinNl ((M ++ [x ++ tail]) ++ REST) =
      (joinNl (M ++ [x]) ++ tail) ++ '\n' :: joinNl REST := by
  rw [joinNl_append (by simp) hREST, joinNl_concat_append]

theorem ind18_data : ind18.data = sp18L := rfl

theorem nbL_sp12 : nbL sp12L = [] := by decide

theorem dmL_nil : dmL [] = [] := by decide

set_option maxRecDepth 10000 in
theorem talLines_inds : talLines.filterMap idfL = sp12L :: talIndsTail := by
  decide

theorem dedentL_expand (t : List Char) :
    dedentL t = joinNl (((splitNl t).map nbL).map
      (fun l => if isPre (marginOf ((splitNl t).map nbL)) l
        then l.drop (marginOf ((splitNl t).map nbL)).length else l)) := rfl

theorem fQL_no_newline {m : List Char} (hm : '\n' ∉ m) : '\n' ∉ fQL m := by
  unfold fQL
  by_cases h : m.all pyWs = true
  · rw [if_pos h]
    exact hm
  · rw [if_neg h]
    intro hc
    rcases List.mem_append.mp hc with h1 | h2
    · exact absurd h1 (by decide)
    · exact hm h2

theorem g18L_shape (m : List Char) :
    g18L m = [] ∨ isPre sp12L ((g18L m).takeWhile spaceTab) = true := by
  unfold g18L
  by_cases h : m.all spaceTab = true
  · rw [if_pos h]
    exact Or.inl rfl
  · rw [if_neg h]
    right
    rw [takeWhile_append_all _ (by decide)]
    exact isPre_sp12_sp18 _

theorem merged_pre (x tail : List Char) :
    isPre sp12L (((sp18L ++ x) ++ tail).takeWhile spaceTab) = true := by
  rw [List.append_assoc, takeWhile_append_all _ (by decide)]
  exact isPre_sp12_sp18 _

/-- Core computation behind C2: on well-behaved queries the dedent of the
assembled comparator text is the 12-space-dedented template around the
6-space-indented queries. -/
theorem comparator_core {qL qR : List Char}
    (hWL : wsLinesSafe qL) (hWR : wsLinesSafe qR)
    (hL : rstripL qL ≠ []) (hR : rstripL qR ≠ []) :
    dedentL (tplA.data ++ (indentL sp18L (rstripL qL) ++ (tplB.data ++
      (indentL sp18L (rstripL qR) ++ tplC.data)))) =
      ddA ++ (embedSub qL ++ (ddB ++ (embedSub qR ++ ddC))) := by
  obtain ⟨ML, mL, cL, hsL, hcL⟩ := side_decomp hL
  obtain ⟨MR, mR, cR, hsR, hcR⟩ := side_decomp hR
  set mcL := mL ++ [cL] with hdefL
  set mcR := mR ++ [cR] with hdefR
  have hmcL : mcL.all pyWs = false := by
    rw [hdefL]
    simp [List.all_append, hcL]
  have hmcR : mcR.all pyWs = false := by
    rw [hdefR]
    simp [List.all_append, hcR]
  have hstL : mcL.all spaceTab = false := all_spaceTab_false_of_pyWs hmcL
  have hstR : mcR.all spaceTab = false := all_spaceTab_false_of_pyWs hmcR
  have hIndL : indentL sp18L (rstripL qL) =
      joinNl (ML.map fQL ++ [sp18L ++ mcL]) := indentL_decomp hsL hmcL
  have hIndR : indentL sp18L (rstripL qR) =
      joinNl (MR.map fQL ++ [sp18L ++ mcR]) := indentL_decomp hsR hmcR
  -- the assembled pre-dedent text, as a list of lines
  set AL : List (List Char) := talLines ++
    ((ML.map fQL ++ [(sp18L ++ mcL) ++ tb1]) ++ (tbMid ++
      ((MR.map fQL ++ [(sp18L ++ mcR) ++ tc1]) ++ (tcMid ++ [sp12L]))))
    with hALdef
  have hne3 : tcMid ++ [sp12L] ≠ [] := by simp
  have hne4 : (MR.map fQL ++ [(sp18L ++ mcR) ++ tc1]) ++
      (tcMid ++ [sp12L]) ≠ [] := by simp
  have hne5 : tbMid ++ ((MR.map fQL ++ [(sp18L ++ mcR) ++ tc1]) ++
      (tcMid ++ [sp12L])) ≠ [] := by simp [tbMid]
  have hne6 : (ML.map fQL ++ [(sp18L ++ mcL) ++ tb1]) ++ (tbMid ++
      ((MR.map fQL ++ [(sp18L ++ mcR) ++ tc1]) ++ (tcMid ++ [sp12L]))) ≠
      [] := by simp
  have e5 : joinNl (tcMid ++ [sp12L]) = joinNl tcMid ++ '\n' :: sp12L := by
    rw [joinNl_append (by decide) (by simp)]
    rfl
  have e4 : joinNl ((MR.map fQL ++ [(sp18L ++ mcR) ++ tc1]) ++
      (tcMid ++ [sp12L])) =
      (joinNl (MR.map fQL ++ [sp18L ++ mcR]) ++ tc1) ++
        '\n' :: (joinNl tcMid ++ '\n' :: sp12L) := by
    rw [joinNl_block (sp18L ++ mcR) tc1 hne3, e5]
  have e3 : joinNl (tbMid ++ ((MR.map fQL ++ [(sp18L ++ mcR) ++ tc1]) ++
      (tcMid ++ [sp12L]))) =
      joinNl tbMid ++ '\n' ::
        ((joinNl (MR.map fQL ++ [sp18L ++ mcR]) ++ tc1) ++
          '\n' :: (joinNl tcMid ++ '\n' :: sp12L)) := by
    rw [joinNl_append (by decide) hne4, e4]
  have e2 : joinNl ((ML.map fQL ++ [(sp18L ++ mcL) ++ tb1]) ++ (tbMid ++
      ((MR.map fQL ++ [(sp18L ++ mcR) ++ tc1]) ++ (tcMid ++ [sp12L])))) =
      (joinNl (ML.map fQL ++ [sp18L ++ mcL]) ++ tb1) ++
        '\n' :: (joinNl tbMid ++ '\n' ::
          ((joinNl (MR.map fQL ++ [sp18L ++ mcR]) ++ tc1) ++
            '\n' :: (joinNl tcMid ++ '\n' :: sp12L))) := by
    rw [joinNl_block (sp18L ++ mcL) tb1 hne5, e3]
  have e1 : joinNl AL =
      joinNl talLines ++ '\n' ::
        ((joinNl (ML.map fQL ++ [sp18L ++ mcL]) ++ tb1) ++
          '\n' :: (joinNl tbMid ++ '\n' ::
            ((joinNl (MR.map fQL ++ [sp18L ++ mcR]) ++ tc1) ++
              '\n' :: (joinNl tcMid ++ '\n' :: sp12L)))) := by
    rw [hALdef, joinNl_append (by decide) hne6, e2]
  have hassembled : tplA.data ++ (indentL sp18L (rstripL qL) ++
      (tplB.data ++ (indentL sp18L (rstripL qR) ++ tplC.data))) =
      joinNl AL := by
    rw [hIndL, hIndR, tplA_data, tplB_data, tplC_data, e1]
    simp [List.append_assoc]
  -- every line of the assembled text is newline-free
  have hfreeML : ∀ m ∈ ML, '\n' ∉ m := fun m hm =>
    mem_splitNl_no_newline (by rw [hsL]; exact List.mem_append_left _ hm)
  have hfreeMR : ∀ m ∈ MR, '\n' ∉ m := fun m hm =>
    mem_splitNl_no_newline (by rw [hsR]; exact List.mem_append_left _ hm)
  have hmemmcL : mcL ∈ splitNl (rstripL qL) := by
    rw [hsL]
    exact List.mem_append_right _ (List.mem_singleton.mpr rfl)
  have hmemmcR : mcR ∈ splitNl (rstripL qR) := by
    rw [hsR]
    exact List.mem_append_right _ (List.mem_singleton.mpr rfl)
  have hfreemcL : '\n' ∉ mcL := mem_splitNl_no_newline hmemmcL
  have hfreemcR : '\n' ∉ mcR := mem_splitNl_no_newline hmemmcR
  have hmerge1 : '\n' ∉ (sp18L ++ mcL) ++ tb1 := by
    intro hc
    rcases List.mem_append.mp hc with h1 | h2
    · rcases List.mem_append.mp h1 with h3 | h4
      · exact absurd h3 (by decide)
      · exact hfreemcL h4
    · exact absurd h2 (by decide)
  have hmerge2 : '\n' ∉ (sp18L ++ mcR) ++ tc1 := by
    intro hc
    rcases List.mem_append.mp hc with h1 | h2
    · rcases List.mem_append.mp h1 with h3 | h4
      · exact absurd h3 (by decide)
      · exact hfreemcR h4
    · exact absurd h2 (by decide)
  have hfree : ∀ l ∈ AL, '\n' ∉ l := by
    intro l hl
    rw [hALdef] at hl
    simp only [List.mem_append, List.mem_singleton] at hl
    have htal : ∀ x ∈ talLines, '\n' ∉ x := by decide
    have htb : ∀ x ∈ tbMid, '\n' ∉ x := by decide
    have htc : ∀ x ∈ tcMid, '\n' ∉ x := by decide
    rcases hl with h | ((h | h) | (h | ((h | h) | (h | h))))
    · exact htal l h
    · rcases List.mem_map.mp h with ⟨m, hm, rfl⟩
      exact fQL_no_newline (hfreeML m hm)
    · exact h ▸ hmerge1
    · exact htb l h
    · rcases List.mem_map.mp h with ⟨m, hm, rfl⟩
      exact fQL_no_newline (hfreeMR m hm)
    · exact h ▸ hmerge2
    · exact htc l h
    · subst h
      decide
  have hALne : AL ≠ [] := by
    rw [hALdef]
    simp [talLines]
  have hsplitAL : splitNl (tplA.data ++ (indentL sp18L (rstripL qL) ++
      (tplB.data ++ (indentL sp18L (rstripL qR) ++ tplC.data)))) = AL := by
    rw [hassembled]
    exact splitNl_joinNl hALne hfree
  -- normalization pass
  have hWL' : ∀ m ∈ ML, m.all pyWs = true → m.all spaceTab = true :=
    fun m hm h => hWL m (by rw [hsL]; exact List.mem_append_left _ hm) h
  have hWR' : ∀ m ∈ MR, m.all pyWs = true → m.all spaceTab = true :=
    fun m hm h => hWR m (by rw [hsR]; exact List.mem_append_left _ hm) h
  set NL : List (List Char) := talLines ++
    ((ML.map g18L ++ [(sp18L ++ mcL) ++ tb1]) ++ (tbMid ++
      ((MR.map g18L ++ [(sp18L ++ mcR) ++ tc1]) ++ (tcMid ++ [[]]))))
    with hNLdef
  have hnbAL : AL.map nbL = NL := by
    rw [hALdef, hNLdef]
    simp only [List.map_append, List.map_cons, List.map_nil]
    rw [talLines_nbL, tbMid_nbL, tcMid_nbL, map_nb_fQ hWL', map_nb_fQ hWR',
      merged_nbL tb1 (by decide), merged_nbL tc1 (by decide), nbL_sp12]
  -- margin
  have hmargin : marginOf NL = sp12L := by
    apply marginOf_eq_sp12
    · refine ⟨talIndsTail ++ ((ML.map g18L ++
        [(sp18L ++ mcL) ++ tb1]) ++ (tbMid ++ ((MR.map g18L ++
        [(sp18L ++ mcR) ++ tc1]) ++ (tcMid ++ [[]])))).filterMap idfL, ?_⟩
      rw [hNLdef, List.filterMap_append, talLines_inds, List.cons_append]
    · intro l hl
      rw [hNLdef] at hl
      simp only [List.mem_append, List.mem_singleton] at hl
      have htal : ∀ x ∈ talLines,
          x = [] ∨ isPre sp12L (x.takeWhile spaceTab) = true := by decide
      have htb : ∀ x ∈ tbMid,
          x = [] ∨ isPre sp12L (x.takeWhile spaceTab) = true := by decide
      have htc : ∀ x ∈ tcMid,
          x = [] ∨ isPre sp12L (x.takeWhile spaceTab) = true := by decide
      rcases hl with h | ((h | h) | (h | ((h | h) | (h | h))))
      · exact htal l h
      · rcases List.mem_map.mp h with ⟨m, hm, rfl⟩
        exact g18L_shape m
      · subst h
        exact Or.inr (merged_pre mcL tb1)
      · exact htb l h
      · rcases List.mem_map.mp h with ⟨m, hm, rfl⟩
        exact g18L_shape m
      · subst h
        exact Or.inr (merged_pre mcR tc1)
      · exact htc l h
      · subst h
        exact Or.inl rfl
  -- margin-stripping pass
  set FIN : List (List Char) := dTal ++
    ((ML.map gQL ++ [(sp6L ++ mcL) ++ tb1]) ++ (dTb ++
      ((MR.map gQL ++ [(sp6L ++ mcR) ++ tc1]) ++ (dTc ++ [[]]))))
    with hFINdef
  have hdm : NL.map dmL = FIN := by
    rw [hNLdef, hFINdef]
    simp only [List.map_append, List.map_cons, List.map_nil]
    rw [talLines_dmL, tbMid_dmL, tcMid_dmL, map_dm_g18, map_dm_g18,
      merged_dmL mcL tb1, merged_dmL mcR tc1, dmL_nil]
  have hded : dedentL (tplA.data ++ (indentL sp18L (rstripL qL) ++
      (tplB.data ++ (indentL sp18L (rstripL qR) ++ tplC.data)))) =
      joinNl FIN := by
    rw [dedentL_expand, hsplitAL, hnbAL, hmargin]
    have hfn : (fun l : List Char => if isPre sp12L l
        then l.drop sp12L.length else l) = dmL := rfl
    rw [hfn, hdm]
  -- the right-hand side is the same line list
  have hemL : embedSub qL = joinNl (ML.map gQL ++ [sp6L ++ mcL]) := by
    unfold embedSub
    rw [hsL, List.map_append]
    simp only [List.map_cons, List.map_nil]
    have : gQL mcL = sp6L ++ mcL := by
      unfold gQL
      rw [hstL]
      rfl
    rw [this]
  have hemR : embedSub qR = joinNl (MR.map gQL ++ [sp6L ++ mcR]) := by
    unfold embedSub
    rw [hsR, List.map_append]
    simp only [List.map_cons, List.map_nil]
    have : gQL mcR = sp6L ++ mcR := by
      unfold gQL
      rw [hstR]
      rfl
    rw [this]
  have hfne3 : dTc ++ [[]] ≠ [] := by simp
  have hfne4 : (MR.map gQL ++ [(sp6L ++ mcR) ++ tc1]) ++ (dTc ++ [[]]) ≠
      [] := by simp
  have f5 : joinNl (dTc ++ [[]]) = joinNl dTc ++ ['\n'] := by
    rw [joinNl_append (by decide) (by simp)]
    rfl
  have f4 : joinNl ((MR.map gQL ++ [(sp6L ++ mcR) ++ tc1]) ++
      (dTc ++ [[]])) =
      (joinNl (MR.map gQL ++ [sp6L ++ mcR]) ++ tc1) ++
        '\n' :: (joinNl dTc ++ ['\n']) := by
    rw [joinNl_block (sp6L ++ mcR) tc1 hfne3, f5]
  have f3 : joinNl (dTb ++ ((MR.map gQL ++ [(sp6L ++ mcR) ++ tc1]) ++
      (dTc ++ [[]]))) =
      joinNl dTb ++ '\n' ::
        ((joinNl (MR.map gQL ++ [sp6L ++ mcR]) ++ tc1) ++
          '\n' :: (joinNl dTc ++ ['\n'])) := by
    rw [joinNl_append (by decide) hfne4, f4]
  have f2 : joinNl ((ML.map gQL ++ [(sp6L ++ mcL) ++ tb1]) ++ (dTb ++
      ((MR.map gQL ++ [(sp6L ++ mcR) ++ tc1]) ++ (dTc ++ [[]])))) =
      (joinNl (ML.map gQL ++ [sp6L ++ mcL]) ++ tb1) ++
        '\n' :: (joinNl dTb ++ '\n' ::
          ((joinNl (MR.map gQL ++ [sp6L ++ mcR]) ++ tc1) ++
            '\n' :: (joinNl dTc ++ ['\n']))) := by
    rw [joinNl_block (sp6L ++ mcL) tb1 (by simp [dTb]), f3]
  have f1 : joinNl FIN =
      joinNl dTal ++ '\n' ::
        ((joinNl (ML.map gQL ++ [sp6L ++ mcL]) ++ tb1) ++
          '\n' :: (joinNl dTb ++ '\n' ::
            ((joinNl (MR.map gQL ++ [sp6L ++ mcR]) ++ tc1) ++
              '\n' :: (joinNl dTc ++ ['\n'])))) := by
    rw [hFINdef, joinNl_append (by decide) (by simp), f2]
  rw [hded, f1, hemL, hemR, ddA_eq, ddB_eq, ddC_eq]
  simp [List.append_assoc]

/-- C2: the comparator SQL string generated by
`query_to_check_that_two_query_results_match` is exactly the dedented
template — `SELECT NOT EXISTS(` over a `FORMAT("%T", ...)`-serialized,
grouped and counted projection of each side, full-joined `USING
(json_string)`, with mismatch rows selected by `(actual.count =
expected.count) IS NOT TRUE` — around the two queries, each rstripped,
its lines re-indented by six spaces (whitespace-only lines emptied).
The hypotheses only exclude degenerate inputs (a query that rstrips to
nothing, or whitespace-only lines containing characters other than
space and tab), for which just the incidental margin width differs. -/
theorem claim_C2 (left right : String)
    (hWL : wsLinesSafe left.data) (hWR : wsLinesSafe right.data)
    (hL : rstripL left.data ≠ []) (hR : rstripL right.data ≠ []) :
    (comparatorSql left right).data =
      ddA ++ embedSub left.data ++ ddB ++ embedSub right.data ++ ddC := by
  have hdata : (comparatorSql left right).data =
      dedentL (tplA.data ++ (indentL sp18L (rstripL left.data) ++
        (tplB.data ++ (indentL sp18L (rstripL right.data) ++
          tplC.data)))) := by
    simp [comparatorSql, pyDedent, pyIndent, pyRstrip, String.data_append,
      ind18_data, List.append_assoc]
  rw [hdata, comparator_core hWL hWR hL hR]
  simp [List.append_assoc]

set_option maxRecDepth 100000 in
theorem claim_C2_witness :
    (comparatorSql "SELECT 1 a" "SELECT 0 + 1 a").data =
      ddA ++ embedSub ("SELECT 1 a").data ++ ddB ++
        embedSub ("SELECT 0 + 1 a").data ++ ddC :=
  claim_C2 "SELECT 1 a" "SELECT 0 + 1 a" (by decide) (by decide)
    (by decide) (by decide)
